import Mathlib

/-!
Verification of the data acquisition/caching core of the agri dashboard:
a shallow embedding of `utils/cache_utils.py` and `utils/nasa_data.py`.

Modelling conventions:
* A Python `datetime` is an integer count of seconds (`Timestamp`); `.date()` is
  floor division by 86400, and `datetime.combine` with min/max time maps a day
  number to its first/last second (sub-second granularity is immaterial to every
  comparison the code performs, all of which are at date granularity).
* Floating point coordinates are rationals. String formatting with four decimals
  is modelled by the integer rounding `round4`; formatted strings and md5 digests
  are injective for the purposes of key comparison, so keys are modelled by the
  tuples the formatted strings are built from.
* A pandas DataFrame is a list of rows, each carrying the synthesized `Date`
  value and the numeric parameter columns as an association list; `none` is a
  missing value (NaN).
* The filesystem is explicit state: the data directory is an association list
  from filenames to file data, where unparseable (corrupt) file content is
  `none`; the tracking index and the number of HTTP requests performed are the
  other two state components. Functions return the final state next to an
  `Except` value, an `Except.error` being an uncaught Python exception.
* `requests.get` is an oracle (`Api`) chosen by each theorem, and the
  `EllipticEnvelope` outlier detector is an oracle (`Detector`) receiving
  exactly the data the source passes to `fit_predict`, namely the selected
  column names and the selected columns of every surviving row.
-/

namespace AgriCache

/-- Timestamps: integer seconds, the image of a Python `datetime`. -/
abbrev Timestamp := Int

/-- Day number of a timestamp, the embedding of `.date()`. Lean integer division
is floor division for the positive divisor 86400. -/
def tsDate (t : Timestamp) : Int := t / 86400

/-- Embeds `datetime.combine(d, datetime.min.time())`: first second of day `d`. -/
def dayStart (d : Int) : Timestamp := d * 86400

/-- Embeds `datetime.combine(d, datetime.max.time())`: last second of day `d`. -/
def dayEnd (d : Int) : Timestamp := d * 86400 + 86399

/-- One row of the tabular weather data: the synthesized `Date` value plus the
numeric parameter columns, an association list from column name to value;
`none` models a missing value. -/
structure Row where
  date : Timestamp
  vals : List (String × Option ℚ)
deriving DecidableEq

/-- A DataFrame from the fetch path: `cols` lists the numeric parameter columns;
the `Date` column is the `date` field of each row. -/
structure DF where
  cols : List String
  rows : List Row
deriving DecidableEq

/-- Column access within a row; `none` when the value is missing. -/
def getCol : List (String × Option ℚ) → String → Option ℚ
  | [], _ => none
  | (c', v) :: rest, c => if c = c' then v else getCol rest c

/-- The date-window filter `df[(df.Date.dt.date >= s) & (df.Date.dt.date <= e)]`
with `s`, `e` day numbers. -/
def filterRange (df : DF) (s e : Int) : DF :=
  { df with rows := df.rows.filter (fun r => decide (s ≤ tsDate r.date ∧ tsDate r.date ≤ e)) }

/-- The statistical outlier detector (`EllipticEnvelope(contamination=0.1,
random_state=42, support_fraction=0.8).fit_predict`) is an external numeric
routine, abstracted as an oracle receiving the selected column names and the
selected columns of each row — exactly `df[numerical_cols]` — and returning one
keep flag per row (`label == 1`). -/
abbrev Detector := List String → List (List (Option ℚ)) → List Bool

/-- The list `numerical_cols`: the numeric dtype columns minus `Date` and `WD2M`
(nasa_data.py lines 17-18). -/
def numerical_cols (df : DF) : List String :=
  df.cols.filter (fun c => decide (c ≠ "Date" ∧ c ≠ "WD2M"))

/-- Keep the rows whose outlier label is 1: `df[outlier_labels == 1]`. -/
def applyMask : List Row → List Bool → List Row
  | [], _ => []
  | _ :: _, [] => []
  | r :: rs, b :: bs => if b then r :: applyMask rs bs else applyMask rs bs

/-- Embeds `Series.between(lo, hi)`: inclusive bounds, false on a missing value. -/
def betweenV (v : Option ℚ) (lo hi : ℚ) : Bool :=
  match v with
  | none => false
  | some x => decide (lo ≤ x ∧ x ≤ hi)

/-- The selection `df[numerical_cols]` restricted to one row: the values of the selected columns. -/
def selectCols (cs : List String) (r : Row) : List (Option ℚ) :=
  cs.map (fun c => getCol r.vals c)

/-- Embeds `clean_weather_data` (nasa_data.py lines 14-44): drop rows with a missing
value in a tracked numeric column, drop the rows the outlier detector flags,
then apply the physical-bounds filter for each bounded column that is present. -/
def clean_weather_data (det : Detector) (df : DF) : DF :=
  let ncols := numerical_cols df
  let r1 := df.rows.filter (fun r => ncols.all (fun c => (getCol r.vals c).isSome))
  let mask := det ncols (r1.map (selectCols ncols))
  let r2 := applyMask r1 mask
  let r3 := if "RH2M" ∈ df.cols then r2.filter (fun r => betweenV (getCol r.vals "RH2M") 0 100) else r2
  let r4 := if "T2M" ∈ df.cols then r3.filter (fun r => betweenV (getCol r.vals "T2M") (-50) 60) else r3
  let r5 := if "PRECTOTCORR" ∈ df.cols then r4.filter (fun r => betweenV (getCol r.vals "PRECTOTCORR") 0 500) else r4
  let r6 := if "WD2M" ∈ df.cols then r5.filter (fun r => betweenV (getCol r.vals "WD2M") 0 360) else r5
  { cols := df.cols, rows := r6 }

/-- Rounding a coordinate to four decimal places, as the `%.4f` formatting used
by every key builder does. The value is computed from the reduced fraction so
that concrete instances evaluate; `round4_eq_round` identifies it with
`round (x * 10000)`. Exact ties round half-up here while float printing rounds
half-even; no rational appearing in a theorem below sits on a tie. -/
def round4 (x : ℚ) : Int := (20000 * x.num + x.den) / (2 * (x.den : Int))

/-- Embeds `DataTracker.get_location_key` (cache_utils.py lines 28-30): the pair of
4-decimal roundings stands for the formatted string `lat:.4f _ lon:.4f`;
formatting is injective on the rounded values, so key equality is pair
equality. -/
def get_location_key (lat lon : ℚ) : Int × Int := (round4 lat, round4 lon)

/-- The md5 fingerprint of `get_cache_key` (cache_utils.py lines 85-91),
modelled by the parameter tuple the hashed string is built from: the format
string and the digest are injective for the purposes of key comparison. -/
inductive CacheKey
  | withRange (lat4 lon4 : Int) (sd ed : Int)
  | withDays (lat4 lon4 : Int) (days : Int)
deriving DecidableEq

/-- Embeds `get_cache_key(latitude, longitude, days, start_date, end_date)`: the
explicit range, when both endpoints are given, is formatted at day granularity
(`strftime %Y%m%d`); otherwise the day count is used. -/
def get_cache_key (lat lon : ℚ) (days : Int) (sd ed : Option Timestamp) : CacheKey :=
  match sd, ed with
  | some s, some e => .withRange (round4 lat) (round4 lon) (tsDate s) (tsDate e)
  | _, _ => .withDays (round4 lat) (round4 lon) days

/-- A value interpolated into a filename f-string; distinct constructors model
the disjoint textual formats (str of a float, `strftime %Y%m%d` of a date,
str of a datetime). -/
inductive FVal
  | coord (q : ℚ)
  | dateStr (d : Int)
  | dtStr (t : Timestamp)
deriving DecidableEq

/-- A filename in the data directory. `weatherData a b c d` is the f-string
`weather_data_ a _ b _ c _ d .csv` of nasa_data.py line 46, the only filename
builder the acquisition path uses (the import of `get_cached_filename` from
cache_utils is shadowed by this local definition). -/
inductive Filename
  | weatherData (p1 p2 p3 p4 : FVal)
deriving DecidableEq

/-- Payload file state: `content = none` models a file that exists but fails to
parse; `mtime` is the modification time `os.path.getmtime` reports. -/
structure FileData where
  content : Option DF
  mtime : Timestamp
deriving DecidableEq

/-- The data directory as an association list (first binding wins). -/
abbrev Files := List (Filename × FileData)

def lookupFile : Files → Filename → Option FileData
  | [], _ => none
  | (f', fd) :: rest, f => if f = f' then some fd else lookupFile rest f

def writeFile : Files → Filename → FileData → Files
  | [], f, fd => [(f, fd)]
  | (f', fd') :: rest, f, fd =>
    if f = f' then (f, fd) :: rest else (f', fd') :: writeFile rest f fd

/-- One record of `tracking.json`: the recorded range, the referenced file and
the `downloaded_at` stamp (cache_utils.py lines 46-51). -/
structure TrackEntry where
  start_date : Timestamp
  end_date : Timestamp
  filename : Filename
  downloaded_at : Timestamp
deriving DecidableEq

/-- The per-location object of `tracking.json`. -/
structure LocData where
  latitude : ℚ
  longitude : ℚ
  data_ranges : List TrackEntry
deriving DecidableEq

/-- The file `tracking.json`: location key to per-location data, insertion ordered. -/
abbrev Tracking := List ((Int × Int) × LocData)

def lookupTr : Tracking → Int × Int → Option LocData
  | [], _ => none
  | (k', d) :: rest, k => if k = k' then some d else lookupTr rest k

/-- Append an entry under a key: update the key in place when present, add the
key at the end otherwise — Python dict semantics. -/
def addToLoc : Tracking → Int × Int → ℚ → ℚ → TrackEntry → Tracking
  | [], k, la, lo, en => [(k, ⟨la, lo, [en]⟩)]
  | (k', d) :: rest, k, la, lo, en =>
    if k = k' then (k', { d with data_ranges := d.data_ranges ++ [en] }) :: rest
    else (k', d) :: addToLoc rest k la lo en

/-- Embeds `DataTracker.add_data_entry` (cache_utils.py lines 32-53): append a coverage
record for the location and persist. -/
def add_data_entry (tr : Tracking) (lat lon : ℚ) (s e : Timestamp)
    (f : Filename) (now : Timestamp) : Tracking :=
  addToLoc tr (get_location_key lat lon) lat lon ⟨s, e, f, now⟩

/-- The coverage test of `find_matching_data` (cache_utils.py line 69):
`cached_start.date() <= start_date.date() and cached_end.date() >= end_date.date()`. -/
def coversReq (en : TrackEntry) (s e : Timestamp) : Bool :=
  decide (tsDate en.start_date ≤ tsDate s ∧ tsDate e ≤ tsDate en.end_date)

/-- The scan of `find_matching_data`: first recorded range that covers the
request and whose referenced file still exists. -/
def findCover (files : Files) : List TrackEntry → Timestamp → Timestamp → Option Filename
  | [], _, _ => none
  | en :: rest, s, e =>
    if coversReq en s e ∧ (lookupFile files en.filename).isSome
    then some en.filename
    else findCover files rest s e

/-- Embeds `DataTracker.find_matching_data` (cache_utils.py lines 55-74). -/
def find_matching_data (files : Files) (tr : Tracking) (lat lon : ℚ)
    (s e : Timestamp) : Option Filename :=
  match lookupTr tr (get_location_key lat lon) with
  | none => none
  | some d => findCover files d.data_ranges s e

/-- The mutable world of the acquisition path: the data directory, the tracking
index, and the number of HTTP requests performed so far (instrumentation for
the idempotence and fetch-count properties). -/
structure St where
  files : Files
  tracking : Tracking
  fetchCount : Nat
deriving DecidableEq

/-- Outcome of `requests.get` against the weather API: the call can raise, or
return a status code and a body; a 200 body is `some df` when the response
parses (YEAR header found, CSV read, Date synthesized from YEAR/MO/DY/HR) and
`none` when parsing would raise. -/
inductive ApiResp
  | netRaise
  | resp (status : Nat) (body : Option DF)
deriving DecidableEq

/-- The remote API as an oracle of the requested coordinates and dates. -/
abbrev Api := ℚ → ℚ → Int → Int → ApiResp

/-- The cache filename `get_weather_data` uses, from the local
`get_cached_filename(start_date, end_date, latitude, longitude)` of
nasa_data.py lines 46-49 called with the date strings first. -/
def weather_cache_file (lat lon : ℚ) (sd ed : Int) : Filename :=
  .weatherData (.dateStr sd) (.dateStr ed) (.coord lat) (.coord lon)

/-- Embeds `get_weather_data` (nasa_data.py lines 51-106): serve the private cache file
when it is under 3600 seconds old and parses (a read failure is caught and falls
through); otherwise perform the HTTP request — counted in `fetchCount` — and on
status 200 parse, clean, save to the private cache file and return the cleaned
data; on any other status return `None`; a network exception or a parse
exception propagates. -/
def get_weather_data (det : Detector) (api : Api) (now : Timestamp) (st : St)
    (lat lon : ℚ) (sd ed : Int) : St × Except String (Option DF) :=
  let cf := weather_cache_file lat lon sd ed
  let cached : Option DF :=
    match lookupFile st.files cf with
    | some fd => if now - fd.mtime < 3600 then fd.content else none
    | none => none
  match cached with
  | some df => (st, .ok (some df))
  | none =>
    let st1 : St := { st with fetchCount := st.fetchCount + 1 }
    match api lat lon sd ed with
    | .netRaise => (st1, .error "requests.get raised")
    | .resp status body =>
      if status = 200 then
        match body with
        | none => (st1, .error "response parse raised")
        | some raw =>
          let df := clean_weather_data det raw
          ({ st1 with files := writeFile st1.files cf ⟨some df, now⟩ }, .ok (some df))
      else (st1, .ok none)

/-- The two accepted request shapes of `get_historical_data`: a day count, or an
explicit start and end date. -/
inductive Req
  | byDays (days : Int)
  | byRange (sd ed : Int)
deriving DecidableEq

/-- The canonical request window (nasa_data.py lines 113-121): an explicit range
gives day `sd` 00:00:00 through day `ed` 23:59:59; a day count gives
`(now - days, now)`. -/
def reqWindow (now : Timestamp) : Req → Timestamp × Timestamp
  | .byRange sd ed => (dayStart sd, dayEnd ed)
  | .byDays d => (now - d * 86400, now)

/-- Embeds `get_historical_data` (nasa_data.py lines 108-156). On a tracker hit the
referenced payload is re-read — raising if it fails to parse — filtered to the
requested dates and returned with cacheHit true. On a miss the fetch result,
when present and nonempty, is written under the filename built by the shadowed
local `get_cached_filename(latitude, longitude, actual_start, actual_end)` and
appended to the tracker, and the unfiltered result is returned with cacheHit
false; an absent or empty fetch result is returned as is with cacheHit false. -/
def get_historical_data (det : Detector) (api : Api) (now : Timestamp) (st : St)
    (lat lon : ℚ) (req : Req) : St × Except String (Option DF × Bool) :=
  let w := reqWindow now req
  match find_matching_data st.files st.tracking lat lon w.1 w.2 with
  | some f =>
    match lookupFile st.files f with
    | some fd =>
      match fd.content with
      | some df => (st, .ok (some (filterRange df (tsDate w.1) (tsDate w.2)), true))
      | none => (st, .error "read_csv raised on the tracked file")
    | none => (st, .error "tracked file vanished")
  | none =>
    let fetched := get_weather_data det api now st lat lon (tsDate w.1) (tsDate w.2)
    match fetched.2 with
    | .error e => (fetched.1, .error e)
    | .ok none => (fetched.1, .ok (none, false))
    | .ok (some df) =>
      if df.rows = [] then (fetched.1, .ok (some df, false))
      else
        let fname := Filename.weatherData (.coord lat) (.coord lon) (.dtStr w.1) (.dtStr w.2)
        ({ fetched.1 with
            files := writeFile fetched.1.files fname ⟨some df, now⟩,
            tracking := add_data_entry fetched.1.tracking lat lon w.1 w.2 fname now },
          .ok (some df, false))

/-- The metadata JSON record `save_cached_data` stores next to a payload
(cache_utils.py lines 109-123): location, day count, save timestamp, and the
observed min/max `Date` of the payload. -/
structure CacheMeta where
  latitude : ℚ
  longitude : ℚ
  days : Int
  timestamp : Timestamp
  range_start : Timestamp
  range_end : Timestamp
deriving DecidableEq

/-- One fingerprint's files in the cache directory: the metadata JSON (an entry
is listed exactly when its JSON exists) and optionally the CSV payload. -/
structure CEntry where
  key : CacheKey
  meta : CacheMeta
  csv : Option DF
deriving DecidableEq

/-- The cache directory, in `os.listdir` order. -/
abbrev CacheStore := List CEntry

/-- The coordinate comparison of the coverage scan,
`abs(stored - requested) < 0.0001` (cache_utils.py lines 147-148), stated on the
reduced fractions so that concrete instances evaluate; `locClose_iff` identifies
it with the source formula. -/
def locClose (a b : ℚ) : Bool :=
  decide (10000 * |a.num * (b.den : Int) - b.num * (a.den : Int)| < (a.den : Int) * b.den)

/-- Embeds `find_matching_cache` (cache_utils.py lines 133-166): first listed entry at
a tolerance-matching location whose stored date range covers the request at date
granularity and whose CSV still exists; an entry without its CSV is skipped and
the scan continues. -/
def find_matching_cache (lat lon : ℚ) (s e : Timestamp) :
    CacheStore → Option (DF × CacheMeta)
  | [] => none
  | en :: rest =>
    if locClose en.meta.latitude lat ∧ locClose en.meta.longitude lon ∧
        tsDate en.meta.range_start ≤ tsDate s ∧ tsDate e ≤ tsDate en.meta.range_end then
      match en.csv with
      | some df => some (df, en.meta)
      | none => find_matching_cache lat lon s e rest
    else find_matching_cache lat lon s e rest

def lookupCache : CacheStore → CacheKey → Option CEntry
  | [], _ => none
  | en :: rest, k => if en.key = k then some en else lookupCache rest k

/-- The exact-fingerprint phase of `load_cached_data` (cache_utils.py lines
185-208): require both files of the fingerprint, reject the entry when the save
timestamp is older than `max_age_hours`, return payload and metadata otherwise. -/
def exactLookup (lat lon : ℚ) (days : Int) (sd ed : Option Timestamp)
    (max_age_hours : Int) (now : Timestamp) (store : CacheStore) :
    Option DF × Option CacheMeta :=
  match lookupCache store (get_cache_key lat lon days sd ed) with
  | none => (none, none)
  | some en =>
    match en.csv with
    | none => (none, none)
    | some df =>
      if now - en.meta.timestamp > max_age_hours * 3600 then (none, none)
      else (some df, some en.meta)

/-- Embeds `load_cached_data` (cache_utils.py lines 168-211): when an explicit range is
given, first run the coverage scan and return its payload filtered to the
requested window provided the filtered result is nonempty; otherwise fall
through to the exact-fingerprint phase. -/
def load_cached_data (lat lon : ℚ) (days : Int) (sd ed : Option Timestamp)
    (max_age_hours : Int) (now : Timestamp) (store : CacheStore) :
    Option DF × Option CacheMeta :=
  let phase1 : Option (DF × CacheMeta) :=
    match sd, ed with
    | some s, some e =>
      match find_matching_cache lat lon s e store with
      | some (df, meta) =>
        let f := filterRange df (tsDate s) (tsDate e)
        if f.rows = [] then none else some (f, meta)
      | none => none
    | _, _ => none
  match phase1 with
  | some (df, meta) => (some df, some meta)
  | none => exactLookup lat lon days sd ed max_age_hours now store

/-! ### Arithmetic and list facts -/

theorem tsDate_dayStart (d : Int) : tsDate (dayStart d) = d := by
  unfold tsDate dayStart; omega

theorem tsDate_dayEnd (d : Int) : tsDate (dayEnd d) = d := by
  unfold tsDate dayEnd; omega

theorem round4_eq_round (x : ℚ) : round4 x = round (x * 10000) := by
  rw [round_eq, round4]
  have hd : (0:ℚ) < (x.den : ℚ) := by exact_mod_cast x.pos
  have hnum : (x.num : ℚ) = x * (x.den : ℚ) :=
    (div_eq_iff (ne_of_gt hd)).mp (Rat.num_div_den x)
  have h : x * 10000 + 1/2 = ((20000 * x.num + (x.den:ℤ) : ℤ) : ℚ) / ((2 * x.den : ℕ) : ℚ) := by
    rw [eq_div_iff (by positivity)]
    push_cast
    rw [hnum]; ring
  rw [h, Rat.floor_intCast_div_natCast]
  push_cast
  ring_nf

theorem round4_ne_of_far {a b : ℚ} (h : 1/1000 ≤ |a - b|) : round4 a ≠ round4 b := by
  intro heq
  rw [round4_eq_round, round4_eq_round] at heq
  have h1 := abs_sub_round (a * 10000)
  have h2 := abs_sub_round (b * 10000)
  have hc : ((round (a * 10000) : ℤ) : ℚ) = ((round (b * 10000) : ℤ) : ℚ) := by
    exact_mod_cast heq
  have h3 : |a * 10000 - b * 10000| ≤ 1 := by
    calc |a * 10000 - b * 10000|
        = |(a * 10000 - (round (a * 10000) : ℚ)) - (b * 10000 - (round (b * 10000) : ℚ))| := by
          rw [hc]; ring_nf
      _ ≤ |a * 10000 - (round (a * 10000) : ℚ)| + |b * 10000 - (round (b * 10000) : ℚ)| :=
          abs_sub _ _
      _ ≤ 1/2 + 1/2 := by gcongr
      _ = 1 := by norm_num
  have h4 : |a * 10000 - b * 10000| = 10000 * |a - b| := by
    rw [show a * 10000 - b * 10000 = 10000 * (a - b) by ring, abs_mul]
    norm_num
  rw [h4] at h3
  nlinarith [h]

theorem lookupFile_writeFile (fs : Files) (f : Filename) (fd : FileData) (g : Filename) :
    lookupFile (writeFile fs f fd) g = if g = f then some fd else lookupFile fs g := by
  induction fs with
  | nil => simp [writeFile, lookupFile]
  | cons p rest ih =>
    obtain ⟨f', fd'⟩ := p
    by_cases hff : f = f'
    · subst hff
      simp only [writeFile, if_pos rfl]
      by_cases hgf : g = f <;> simp [hgf, lookupFile]
    · simp only [writeFile, if_neg hff]
      by_cases hgf' : g = f' <;> by_cases hgf : g = f <;>
        simp_all [lookupFile]

theorem mem_applyMask {rs : List Row} {bs : List Bool} {r : Row}
    (h : r ∈ applyMask rs bs) : r ∈ rs := by
  induction rs generalizing bs with
  | nil => simp [applyMask] at h
  | cons x xs ih =>
    cases bs with
    | nil => simp [applyMask] at h
    | cons b bs =>
      simp only [applyMask] at h
      split at h
      · rcases List.mem_cons.mp h with h1 | h1
        · exact h1 ▸ List.mem_cons_self x xs
        · exact List.mem_cons_of_mem x (ih h1)
      · exact List.mem_cons_of_mem x (ih h)

theorem mem_filterRange {df : DF} {s e : Int} {r : Row} :
    r ∈ (filterRange df s e).rows ↔
      r ∈ df.rows ∧ (s ≤ tsDate r.date ∧ tsDate r.date ≤ e) := by
  simp [filterRange, List.mem_filter]

theorem filterRange_eq_self {df : DF} {s e : Int}
    (h : ∀ r ∈ df.rows, s ≤ tsDate r.date ∧ tsDate r.date ≤ e) :
    filterRange df s e = df := by
  unfold filterRange
  have : df.rows.filter (fun r => decide (s ≤ tsDate r.date ∧ tsDate r.date ≤ e)) = df.rows :=
    List.filter_eq_self.mpr (fun r hr => decide_eq_true (h r hr))
  rw [this]

theorem mem_condFilter {P : Prop} [Decidable P] {l : List Row} {p : Row → Bool} {r : Row}
    (h : r ∈ (if P then l.filter p else l)) : r ∈ l ∧ (P → p r = true) := by
  split at h
  · rcases List.mem_filter.mp h with ⟨h1, h2⟩
    exact ⟨h1, fun _ => h2⟩
  · next hP => exact ⟨h, fun hp => absurd hp hP⟩

theorem betweenV_eq_true {v : Option ℚ} {lo hi : ℚ} (h : betweenV v lo hi = true) :
    ∃ x, v = some x ∧ lo ≤ x ∧ x ≤ hi := by
  cases v with
  | none => simp [betweenV] at h
  | some x =>
    refine ⟨x, rfl, ?_⟩
    simpa [betweenV, decide_eq_true_eq] using h

/-! ### C7 -/

/-- C7: for every input table, every row of the output of `clean_weather_data`
has humidity in 0..100, temperature in -50..60, precipitation in 0..500 and wind
direction in 0..360 whenever the respective column is present, and no missing
value in any tracked numeric parameter column. -/
theorem c7_cleaning_invariants (det : Detector) (df : DF) (r : Row)
    (hr : r ∈ (clean_weather_data det df).rows) :
    ("RH2M" ∈ df.cols → ∃ x, getCol r.vals "RH2M" = some x ∧ 0 ≤ x ∧ x ≤ 100) ∧
    ("T2M" ∈ df.cols → ∃ x, getCol r.vals "T2M" = some x ∧ -50 ≤ x ∧ x ≤ 60) ∧
    ("PRECTOTCORR" ∈ df.cols → ∃ x, getCol r.vals "PRECTOTCORR" = some x ∧ 0 ≤ x ∧ x ≤ 500) ∧
    ("WD2M" ∈ df.cols → ∃ x, getCol r.vals "WD2M" = some x ∧ 0 ≤ x ∧ x ≤ 360) ∧
    (∀ c ∈ numerical_cols df, (getCol r.vals c).isSome = true) := by
  simp only [clean_weather_data] at hr
  obtain ⟨h5, hWD⟩ := mem_condFilter hr
  obtain ⟨h4, hPR⟩ := mem_condFilter h5
  obtain ⟨h3, hT⟩ := mem_condFilter h4
  obtain ⟨h2, hRH⟩ := mem_condFilter h3
  have h1 := mem_applyMask h2
  obtain ⟨h0, hall⟩ := List.mem_filter.mp h1
  refine ⟨fun hp => betweenV_eq_true (hRH hp), fun hp => betweenV_eq_true (hT hp),
    fun hp => betweenV_eq_true (hPR hp), fun hp => betweenV_eq_true (hWD hp), ?_⟩
  intro c hc
  exact List.all_eq_true.mp hall c hc

def detKeepAll : Detector := fun _ rows => rows.map (fun _ => true)

def df9 : DF :=
  ⟨["T2M", "RH2M", "WS2M", "PRECTOTCORR", "WD2M"],
   [⟨0, [("T2M", some 20), ("RH2M", some 50), ("WS2M", some 3),
         ("PRECTOTCORR", some 1), ("WD2M", some 90)]⟩]⟩

/-- C7 witness: the cleaning-invariant theorem applied at a concrete one-row
table and the keep-everything detector. -/
theorem c7_cleaning_invariants_witness :
    (∃ x, getCol (Row.mk 0 [("T2M", some 20), ("RH2M", some 50), ("WS2M", some 3),
        ("PRECTOTCORR", some 1), ("WD2M", some 90)]).vals "RH2M" = some x ∧ 0 ≤ x ∧ x ≤ 100) ∧
    (∀ c ∈ numerical_cols df9,
      (getCol (Row.mk 0 [("T2M", some 20), ("RH2M", some 50), ("WS2M", some 3),
        ("PRECTOTCORR", some 1), ("WD2M", some 90)]).vals c).isSome = true) := by
  have h := c7_cleaning_invariants detKeepAll df9
    ⟨0, [("T2M", some 20), ("RH2M", some 50), ("WS2M", some 3),
         ("PRECTOTCORR", some 1), ("WD2M", some 90)]⟩ (by decide)
  exact ⟨h.1 (by decide), h.2.2.2.2⟩

/-! ### C9 -/

def detKillWD : Detector := fun cs rows => rows.map (fun _ => decide ("WD2M" ∉ cs))

/-- C9 counterexample: the claim says the outlier test is computed over every
numeric parameter column including wind direction. On a table whose numeric
columns include WD2M, the column list handed to the detector excludes WD2M, and
a detector that would flag every row as an outlier whenever it sees WD2M leaves
the table untouched — so the joint test does not include wind direction. -/
theorem c9_counterexample :
    "WD2M" ∈ df9.cols ∧ "WD2M" ∉ numerical_cols df9 ∧
    clean_weather_data detKillWD df9 = clean_weather_data detKeepAll df9 ∧
    (clean_weather_data detKeepAll df9).rows ≠ [] := by decide

/-- C9 amended: `clean_weather_data` applies one joint outlier test over the
numeric parameter columns excluding `Date` and `WD2M`; consequently two
detectors that agree on every column set not containing WD2M produce the same
cleaned output on every table. -/
theorem c9_outlier_excludes_wind (det1 det2 : Detector)
    (hagree : ∀ cs rows, "WD2M" ∉ cs → det1 cs rows = det2 cs rows) (df : DF) :
    clean_weather_data det1 df = clean_weather_data det2 df := by
  have hW : "WD2M" ∉ numerical_cols df := by
    simp [numerical_cols]
  dsimp only [clean_weather_data]
  rw [hagree _ _ hW]

/-- C9 amended witness: the two concrete detectors above agree away from WD2M,
so they clean the concrete table identically. -/
theorem c9_outlier_excludes_wind_witness :
    clean_weather_data detKeepAll df9 = clean_weather_data detKillWD df9 := by
  exact c9_outlier_excludes_wind detKeepAll detKillWD
    (by
      intro cs rows h
      simp [detKeepAll, detKillWD, h])
    df9

/-! ### C10 -/

/-- C10: `get_weather_data` keeps its own one-hour file cache keyed by the raw
coordinates and the date strings: when that file exists, is less than 3600
seconds old and parses, the call returns its contents unchanged and performs no
HTTP request (the state, including `fetchCount`, is returned untouched). -/
theorem c10_private_hour_cache (det : Detector) (api : Api) (now : Timestamp)
    (st : St) (lat lon : ℚ) (sd ed : Int) (fd : FileData) (df : DF)
    (hfile : lookupFile st.files (weather_cache_file lat lon sd ed) = some fd)
    (hfresh : now - fd.mtime < 3600)
    (hparse : fd.content = some df) :
    get_weather_data det api now st lat lon sd ed = (st, .ok (some df)) := by
  dsimp only [get_weather_data]
  rw [hfile]
  dsimp only
  rw [if_pos hfresh, hparse]

def api404 : Api := fun _ _ _ _ => .resp 404 none

/-- C10 witness: a concrete fresh parseable private cache file is served without
touching the (failing) remote. -/
theorem c10_private_hour_cache_witness :
    get_weather_data detKeepAll api404 100
      ⟨[(weather_cache_file 0 0 3 4, ⟨some df9, 0⟩)], [], 0⟩ 0 0 3 4 =
    (⟨[(weather_cache_file 0 0 3 4, ⟨some df9, 0⟩)], [], 0⟩, .ok (some df9)) := by
  exact c10_private_hour_cache detKeepAll api404 100 _ 0 0 3 4 ⟨some df9, 0⟩ df9
    (by decide) (by decide) rfl

/-! ### Further lookup facts -/

theorem lookupFile_mem {fs : Files} {f : Filename} {fd : FileData}
    (h : lookupFile fs f = some fd) : (f, fd) ∈ fs := by
  induction fs with
  | nil => simp [lookupFile] at h
  | cons p rest ih =>
    obtain ⟨f', fd'⟩ := p
    simp only [lookupFile] at h
    split at h
    · next heq => cases h; exact heq ▸ List.mem_cons_self _ _
    · exact List.mem_cons_of_mem _ (ih h)

theorem findCover_some_isSome {files : Files} {l : List TrackEntry} {s e : Timestamp}
    {f : Filename} (h : findCover files l s e = some f) :
    (lookupFile files f).isSome = true := by
  induction l with
  | nil => simp [findCover] at h
  | cons en rest ih =>
    simp only [findCover] at h
    split at h
    · next hcond => cases h; exact hcond.2
    · exact ih h

theorem findCover_none_forall {files : Files} {l : List TrackEntry} {s e : Timestamp}
    (h : findCover files l s e = none) :
    ∀ en ∈ l, coversReq en s e = true → lookupFile files en.filename = none := by
  induction l with
  | nil => intro en hen; simp at hen
  | cons x rest ih =>
    intro en hen hcov
    simp only [findCover] at h
    split at h
    · exact absurd h (by simp)
    · next hcond =>
      rcases List.mem_cons.mp hen with rfl | hen'
      · cases hlk : lookupFile files en.filename with
        | none => rfl
        | some fd => exact absurd ⟨hcov, by simp [hlk]⟩ hcond
      · exact ih h en hen' hcov

theorem find_matching_data_isSome {files : Files} {tr : Tracking} {lat lon : ℚ}
    {s e : Timestamp} {f : Filename}
    (h : find_matching_data files tr lat lon s e = some f) :
    (lookupFile files f).isSome = true := by
  unfold find_matching_data at h
  split at h
  · exact absurd h (by simp)
  · exact findCover_some_isSome h

/-! ### C5 -/

/-- C5: in `load_cached_data`, an exact-fingerprint entry whose save timestamp
is older than `max_age_hours` is treated as absent, while a coverage-scan match
(here with an arbitrary, unconstrained save timestamp) is returned filtered,
regardless of its age. -/
theorem c5_staleness_asymmetry
    (lat lon : ℚ) (days : Int) (s e : Timestamp) (max_age_hours now : Int)
    (store : CacheStore) (en : CEntry) (df dfc : DF) (meta : CacheMeta) :
    (lookupCache store (get_cache_key lat lon days none none) = some en →
      en.csv = some df →
      now - en.meta.timestamp > max_age_hours * 3600 →
      load_cached_data lat lon days none none max_age_hours now store = (none, none)) ∧
    (find_matching_cache lat lon s e store = some (dfc, meta) →
      (filterRange dfc (tsDate s) (tsDate e)).rows ≠ [] →
      load_cached_data lat lon days (some s) (some e) max_age_hours now store =
        (some (filterRange dfc (tsDate s) (tsDate e)), some meta)) := by
  constructor
  · intro hlook hcsv hstale
    dsimp only [load_cached_data, exactLookup]
    rw [hlook]
    dsimp only
    rw [hcsv]
    dsimp only
    rw [if_pos hstale]
  · intro hfind hne
    dsimp only [load_cached_data]
    rw [hfind]
    dsimp only
    rw [if_neg hne]

def metaStale : CacheMeta := ⟨0, 0, 30, 0, dayStart 3, dayEnd 20⟩

def dfDay4 : DF := ⟨[], [⟨dayStart 4, []⟩]⟩

def storeExact : CacheStore := [⟨.withDays 0 0 30, metaStale, some dfDay4⟩]

def storeCover : CacheStore := [⟨.withDays 0 0 30, metaStale, some dfDay4⟩]

/-- C5 witness: with `now` one million seconds past a save stamp of 0 and a
24-hour limit, the exact-fingerprint lookup of a day-count request returns
nothing, while a range request covered by the same ancient entry is served. -/
theorem c5_staleness_asymmetry_witness :
    load_cached_data 0 0 30 none none 24 1000000 storeExact = (none, none) ∧
    load_cached_data 0 0 30 (some (dayStart 4)) (some (dayEnd 4)) 24 1000000 storeCover =
      (some (filterRange dfDay4 (tsDate (dayStart 4)) (tsDate (dayEnd 4))), some metaStale) := by
  constructor
  · exact (c5_staleness_asymmetry 0 0 30 0 0 24 1000000 storeExact
      ⟨.withDays 0 0 30, metaStale, some dfDay4⟩ dfDay4 dfDay4 metaStale).1
      (by decide) rfl (by decide)
  · exact (c5_staleness_asymmetry 0 0 30 (dayStart 4) (dayEnd 4) 24 1000000 storeCover
      ⟨.withDays 0 0 30, metaStale, some dfDay4⟩ dfDay4 dfDay4 metaStale).2
      (by decide) (by decide)

/-! ### C6 -/

def cacheKeyLat : CacheKey → Int
  | .withRange a _ _ _ => a
  | .withDays a _ _ => a

def cacheKeyLon : CacheKey → Int
  | .withRange _ b _ _ => b
  | .withDays _ b _ => b

theorem cacheKeyLat_get (lat lon : ℚ) (days : Int) (sd ed : Option Timestamp) :
    cacheKeyLat (get_cache_key lat lon days sd ed) = round4 lat := by
  cases sd <;> cases ed <;> rfl

theorem cacheKeyLon_get (lat lon : ℚ) (days : Int) (sd ed : Option Timestamp) :
    cacheKeyLon (get_cache_key lat lon days sd ed) = round4 lon := by
  cases sd <;> cases ed <;> rfl

def qA : ℚ := ⟨1, 25000, by norm_num, by norm_num⟩

def qB : ℚ := ⟨3, 50000, by norm_num, by norm_num⟩

/-- C6 counterexample: the latitudes 0.00004 (`qA`) and 0.00006 (`qB`) differ by
0.00002, below 0.0001, with equal longitudes, yet they are mapped to different
tracker keys and different cache keys, because they straddle the 4-decimal
rounding boundary between 0.0000 and 0.0001. -/
theorem c6_counterexample :
    |qA - qB| < 1/10000 ∧
    get_location_key qA 0 ≠ get_location_key qB 0 ∧
    get_cache_key qA 0 30 none none ≠ get_cache_key qB 0 30 none none := by
  refine ⟨?_, by decide, by decide⟩
  rw [qA, qB, Rat.mk'_eq_divInt, Rat.mk'_eq_divInt, Rat.divInt_eq_div, Rat.divInt_eq_div]
  rw [abs_lt]
  constructor <;> norm_num

/-- C6 amended: a coordinate difference of 0.001 degrees or more in either
component always yields different tracker keys and different cache keys
(sub-0.0001 differences, by the counterexample, need not collide). -/
theorem c6_distant_coords_differ (lat1 lon1 lat2 lon2 : ℚ) (days : Int)
    (sd ed : Option Timestamp)
    (h : 1/1000 ≤ |lat1 - lat2| ∨ 1/1000 ≤ |lon1 - lon2|) :
    get_location_key lat1 lon1 ≠ get_location_key lat2 lon2 ∧
    get_cache_key lat1 lon1 days sd ed ≠ get_cache_key lat2 lon2 days sd ed := by
  rcases h with h | h
  · have hne := round4_ne_of_far h
    constructor
    · intro hk; exact hne (congrArg Prod.fst hk)
    · intro hk
      have := congrArg cacheKeyLat hk
      rw [cacheKeyLat_get, cacheKeyLat_get] at this
      exact hne this
  · have hne := round4_ne_of_far h
    constructor
    · intro hk; exact hne (congrArg Prod.snd hk)
    · intro hk
      have := congrArg cacheKeyLon hk
      rw [cacheKeyLon_get, cacheKeyLon_get] at this
      exact hne this

/-- C6 amended witness: latitudes 1 and 0 (a difference far above 0.001) give
different tracker and cache keys. -/
theorem c6_distant_coords_differ_witness :
    get_location_key 1 0 ≠ get_location_key 0 0 ∧
    get_cache_key 1 0 30 none none ≠ get_cache_key 0 0 30 none none :=
  c6_distant_coords_differ 1 0 0 0 30 none none (Or.inl (by norm_num))

/-! ### C3 -/

def st0 : St := ⟨[], [], 0⟩

def apiParseFail : Api := fun _ _ _ _ => .resp 200 none

/-- C3 counterexample: a 200 response without the YEAR header makes the parse
raise, and `get_historical_data` propagates the exception instead of returning
an absent dataset with cacheHit false. -/
theorem c3_counterexample :
    (get_historical_data detKeepAll apiParseFail 0 st0 0 0 (.byRange 0 0)).2 =
      .error "response parse raised" := by rfl

/-- C3 amended: `get_historical_data` returns without raising whenever the
remote call does not itself raise, every 200 response parses, and every file in
the data directory parses; the failures it converts to a benign return are a
non-success HTTP status (absent dataset, cacheHit false) and an empty fetch
result — a network exception, an unparseable 200 response or an unreadable
tracked cache file propagates as an exception. -/
theorem gw_no_raise_when_benign (det : Detector) (api : Api) (now : Timestamp)
    (st : St) (lat lon : ℚ) (sd ed : Int)
    (hnet : api lat lon sd ed ≠ .netRaise)
    (hparse : api lat lon sd ed ≠ .resp 200 none)
    (hfiles : ∀ p ∈ st.files, (p.2).content.isSome = true) :
    ∃ o, (get_weather_data det api now st lat lon sd ed).2 = .ok o := by
  dsimp only [get_weather_data]
  cases hlk : lookupFile st.files (weather_cache_file lat lon sd ed) with
  | some fd =>
    dsimp only
    have := hfiles _ (lookupFile_mem hlk)
    rcases Option.isSome_iff_exists.mp this with ⟨df, hdf⟩
    by_cases hfr : now - fd.mtime < 3600
    · rw [if_pos hfr, hdf]
      exact ⟨_, rfl⟩
    · rw [if_neg hfr]
      dsimp only
      cases hapi : api lat lon sd ed with
      | netRaise => exact absurd hapi hnet
      | resp status body =>
        dsimp only
        by_cases h200 : status = 200
        · rw [if_pos h200]
          cases body with
          | none => exact absurd (h200 ▸ hapi) hparse
          | some raw => exact ⟨_, rfl⟩
        · rw [if_neg h200]
          exact ⟨_, rfl⟩
  | none =>
    dsimp only
    cases hapi : api lat lon sd ed with
    | netRaise => exact absurd hapi hnet
    | resp status body =>
      dsimp only
      by_cases h200 : status = 200
      · rw [if_pos h200]
        cases body with
        | none => exact absurd (h200 ▸ hapi) hparse
        | some raw => exact ⟨_, rfl⟩
      · rw [if_neg h200]
        exact ⟨_, rfl⟩

theorem c3_no_raise_when_benign (det : Detector) (api : Api) (now : Timestamp)
    (st : St) (lat lon : ℚ) (req : Req)
    (hnet : ∀ a b c d, api a b c d ≠ .netRaise)
    (hparse : ∀ a b c d, api a b c d ≠ .resp 200 none)
    (hfiles : ∀ p ∈ st.files, (p.2).content.isSome = true) :
    ∃ res, (get_historical_data det api now st lat lon req).2 = .ok res := by
  dsimp only [get_historical_data]
  cases hfind : find_matching_data st.files st.tracking lat lon
      (reqWindow now req).1 (reqWindow now req).2 with
  | some f =>
    dsimp only
    have hs := find_matching_data_isSome hfind
    rcases Option.isSome_iff_exists.mp hs with ⟨fd, hfd⟩
    rw [hfd]
    dsimp only
    have hc := hfiles _ (lookupFile_mem hfd)
    dsimp only at hc
    rcases Option.isSome_iff_exists.mp hc with ⟨df, hdf⟩
    rw [hdf]
    exact ⟨_, rfl⟩
  | none =>
    dsimp only
    obtain ⟨o, ho⟩ := gw_no_raise_when_benign det api now st lat lon
      (tsDate (reqWindow now req).1) (tsDate (reqWindow now req).2)
      (hnet _ _ _ _) (hparse _ _ _ _) hfiles
    rw [ho]
    cases o with
    | none => exact ⟨_, rfl⟩
    | some df =>
      dsimp only
      split <;> exact ⟨_, rfl⟩

/-- C3 amended witness: a remote that always answers 404 makes the call return
benignly on the empty state. -/
theorem c3_no_raise_when_benign_witness :
    ∃ res, (get_historical_data detKeepAll api404 0 st0 0 0 (.byRange 0 0)).2 = .ok res := by
  apply c3_no_raise_when_benign
  · intro a b c d h; simp [api404] at h
  · intro a b c d h; simp [api404] at h
  · intro p hp; cases hp

/-! ### C4 -/

def fnameC4 : Filename := .weatherData (.coord 0) (.coord 0) (.dtStr (dayStart 10)) (.dtStr (dayEnd 20))

def dfDay0 : DF := ⟨[], [⟨0, []⟩]⟩

def stC4 : St :=
  ⟨[(fnameC4, ⟨some dfDay0, 0⟩)],
   [((0, 0), ⟨0, 0, [⟨dayStart 10, dayEnd 20, fnameC4, 0⟩]⟩)], 0⟩

def api200 : Api := fun _ _ _ _ => .resp 200 (some dfDay0)

/-- C4 counterexample: the tracker covers days 12..15 through a stored file
whose only row lies at day 0, so filtering yields an empty dataset — yet
`get_historical_data` returns the empty dataset with cacheHit true, the state
untouched and no fetch performed, instead of treating it as a miss and falling
through to the remote fetch. -/
theorem c4_counterexample :
    get_historical_data detKeepAll api200 0 stC4 0 0 (.byRange 12 15) =
      (stC4, .ok (some ⟨[], []⟩, true)) := by rfl

/-- C4 amended: the empty-filter fall-through exists in `load_cached_data`, not
in `get_historical_data`: when the coverage scan matches but the filtered
payload is empty, `load_cached_data` discards the coverage result and proceeds
to the exact-fingerprint phase. -/
theorem c4_load_cached_falls_back (lat lon : ℚ) (days : Int) (s e : Timestamp)
    (max_age_hours now : Int) (store : CacheStore) (df : DF) (meta : CacheMeta)
    (hfind : find_matching_cache lat lon s e store = some (df, meta))
    (hempty : (filterRange df (tsDate s) (tsDate e)).rows = []) :
    load_cached_data lat lon days (some s) (some e) max_age_hours now store =
      exactLookup lat lon days (some s) (some e) max_age_hours now store := by
  dsimp only [load_cached_data]
  rw [hfind]
  dsimp only
  rw [if_pos hempty]

def storeC4 : CacheStore := [⟨.withDays 0 0 30, metaStale, some dfDay0⟩]

/-- C4 amended witness: a coverage match at days 4..4 over a payload whose only
row lies at day 0 filters to empty, and the lookup is the exact-fingerprint
result. -/
theorem c4_load_cached_falls_back_witness :
    load_cached_data 0 0 30 (some (dayStart 4)) (some (dayEnd 4)) 24 1000000 storeC4 =
      exactLookup 0 0 30 (some (dayStart 4)) (some (dayEnd 4)) 24 1000000 storeC4 :=
  c4_load_cached_falls_back 0 0 30 (dayStart 4) (dayEnd 4) 24 1000000 storeC4
    dfDay0 metaStale (by decide) (by decide)

/-! ### C8 -/

def dfDay5 : DF := ⟨[], [⟨dayStart 5, []⟩]⟩

def apiC8 : Api := fun _ _ _ _ => .resp 200 (some dfDay5)

/-- C8 counterexample: a request whose end day 0 precedes its start day 5 is not
rejected: the call runs to completion without a distinguishable error, performs
one remote fetch, and returns the fetched dataset with cacheHit false. -/
theorem c8_counterexample :
    (get_historical_data detKeepAll apiC8 0 st0 0 0 (.byRange 5 0)).1.fetchCount = 1 ∧
    (get_historical_data detKeepAll apiC8 0 st0 0 0 (.byRange 5 0)).2 =
      .ok (some dfDay5, false) := by
  constructor <;> rfl

/-- C8 amended: an inverted explicit range (end before start) is not validated:
provided neither the tracker nor the private hour cache short-circuits the call,
`get_historical_data` performs exactly one remote fetch with the inverted
window, and any error it returns comes from the remote call or response parse,
never from the inversion. -/
theorem c8_inverted_range_not_rejected (det : Detector) (api : Api)
    (now : Timestamp) (st : St) (lat lon : ℚ) (sd ed : Int)
    (hinv : ed < sd)
    (hmiss : find_matching_data st.files st.tracking lat lon (dayStart sd) (dayEnd ed) = none)
    (hnofile : lookupFile st.files (weather_cache_file lat lon sd ed) = none) :
    (get_historical_data det api now st lat lon (.byRange sd ed)).1.fetchCount =
      st.fetchCount + 1 ∧
    (∀ msg, (get_historical_data det api now st lat lon (.byRange sd ed)).2 = .error msg →
      api lat lon sd ed = .netRaise ∨ api lat lon sd ed = .resp 200 none) := by
  have hgw : ∀ gwst r, get_weather_data det api now st lat lon sd ed = (gwst, r) →
      gwst.fetchCount = st.fetchCount + 1 ∧
      (∀ msg, r = .error msg →
        api lat lon sd ed = .netRaise ∨ api lat lon sd ed = .resp 200 none) := by
    intro gwst r h
    dsimp only [get_weather_data] at h
    rw [hnofile] at h
    dsimp only at h
    cases hapi : api lat lon sd ed with
    | netRaise =>
      rw [hapi] at h
      cases h
      exact ⟨rfl, fun _ _ => Or.inl rfl⟩
    | resp status body =>
      rw [hapi] at h
      dsimp only at h
      by_cases h200 : status = 200
      · rw [if_pos h200] at h
        cases body with
        | none =>
          cases h
          exact ⟨rfl, fun _ _ => Or.inr (by rw [h200])⟩
        | some raw =>
          cases h
          exact ⟨rfl, by intro msg hm; cases hm⟩
      · rw [if_neg h200] at h
        cases h
        exact ⟨rfl, by intro msg hm; cases hm⟩
  dsimp only [get_historical_data, reqWindow]
  rw [tsDate_dayStart, tsDate_dayEnd, hmiss]
  dsimp only
  rcases hE : get_weather_data det api now st lat lon sd ed with ⟨gwst, r⟩
  obtain ⟨hfc, herr⟩ := hgw gwst r hE
  cases r with
  | error e =>
    dsimp only
    exact ⟨hfc, fun msg hm => herr msg (by injection hm with h1; rw [h1])⟩
  | ok o =>
    cases o with
    | none =>
      dsimp only
      exact ⟨hfc, by intro msg hm; cases hm⟩
    | some df =>
      dsimp only
      split
      · exact ⟨hfc, by intro msg hm; cases hm⟩
      · exact ⟨hfc, by intro msg hm; cases hm⟩

/-- C8 amended witness: the inverted request for days 5..0 on the empty state
against a responsive remote performs one fetch and raises nothing. -/
theorem c8_inverted_range_not_rejected_witness :
    (get_historical_data detKeepAll apiC8 0 st0 0 0 (.byRange 5 0)).1.fetchCount = 0 + 1 ∧
    (∀ msg, (get_historical_data detKeepAll apiC8 0 st0 0 0 (.byRange 5 0)).2 = .error msg →
      apiC8 0 0 5 0 = .netRaise ∨ apiC8 0 0 5 0 = .resp 200 none) :=
  c8_inverted_range_not_rejected detKeepAll apiC8 0 st0 0 0 5 0
    (by decide) (by decide) (by decide)

/-! ### Tracker append and rescan facts, towards C1 and C2 -/

theorem lookupTr_addToLoc_self (tr : Tracking) (k : Int × Int) (la lo : ℚ) (en : TrackEntry) :
    lookupTr (addToLoc tr k la lo en) k =
      some (match lookupTr tr k with
            | some d => ⟨d.latitude, d.longitude, d.data_ranges ++ [en]⟩
            | none => ⟨la, lo, [en]⟩) := by
  induction tr with
  | nil => simp [addToLoc, lookupTr]
  | cons p rest ih =>
    obtain ⟨k', d⟩ := p
    by_cases hk : k = k'
    · subst hk
      simp [addToLoc, lookupTr]
    · simp [addToLoc, lookupTr, hk, ih]

theorem findCover_append_covered (files1 files2 : Files) (l : List TrackEntry)
    {s e : Timestamp} {newEn : TrackEntry} {D : DF}
    (Hold : ∀ en ∈ l, coversReq en s e = true → lookupFile files1 en.filename = none)
    (Hchar : ∀ g, lookupFile files2 g = lookupFile files1 g ∨
                  ∃ mt, lookupFile files2 g = some ⟨some D, mt⟩)
    (Hnew : coversReq newEn s e = true)
    (HnewF : ∃ mt, lookupFile files2 newEn.filename = some ⟨some D, mt⟩) :
    ∃ f fd, findCover files2 (l ++ [newEn]) s e = some f ∧
            lookupFile files2 f = some fd ∧ fd.content = some D := by
  induction l with
  | nil =>
    obtain ⟨mt, hmt⟩ := HnewF
    refine ⟨newEn.filename, ⟨some D, mt⟩, ?_, hmt, rfl⟩
    simp only [List.nil_append, findCover]
    rw [if_pos ⟨Hnew, by simp [hmt]⟩]
  | cons x rest ih =>
    simp only [List.cons_append, findCover]
    by_cases hcond : coversReq x s e = true ∧ (lookupFile files2 x.filename).isSome = true
    · rcases Hchar x.filename with hsame | ⟨mt, hmt⟩
      · exfalso
        have hnone := Hold x (List.mem_cons_self _ _) hcond.1
        rw [hsame, hnone] at hcond
        simp at hcond
      · refine ⟨x.filename, ⟨some D, mt⟩, ?_, hmt, rfl⟩
        rw [if_pos hcond]
    · rw [if_neg hcond]
      exact ih (fun en hen => Hold en (List.mem_cons_of_mem _ hen))

/-- Inversion of the fetch tail of `get_weather_data` (the code below the
private-cache check): a successful dataset result forces a 200 response with a
parseable body, the cleaned body as the result, and the state extended by the
written private cache file. -/
theorem gw_fetch_tail_inv {det : Detector} {api : Api} {now : Timestamp} {st : St}
    {lat lon : ℚ} {sd ed : Int} {st' : St} {df : DF}
    (h : (match api lat lon sd ed with
          | ApiResp.netRaise =>
            ({ files := st.files, tracking := st.tracking, fetchCount := st.fetchCount + 1 },
              (Except.error "requests.get raised" : Except String (Option DF)))
          | ApiResp.resp status body =>
            if status = 200 then
              match body with
              | none =>
                ({ files := st.files, tracking := st.tracking, fetchCount := st.fetchCount + 1 },
                  Except.error "response parse raised")
              | some raw =>
                ({ files := writeFile st.files (weather_cache_file lat lon sd ed)
                      ⟨some (clean_weather_data det raw), now⟩,
                    tracking := st.tracking, fetchCount := st.fetchCount + 1 },
                  Except.ok (some (clean_weather_data det raw)))
            else
              ({ files := st.files, tracking := st.tracking, fetchCount := st.fetchCount + 1 },
                Except.ok none)) = (st', .ok (some df))) :
    st'.tracking = st.tracking ∧
    ∃ mt, ∀ g, lookupFile st'.files g =
      if g = weather_cache_file lat lon sd ed then some ⟨some df, mt⟩
      else lookupFile st.files g := by
  cases hapi : api lat lon sd ed with
  | netRaise =>
    rw [hapi] at h
    exact absurd (congrArg Prod.snd h) (by simp)
  | resp status body =>
    rw [hapi] at h
    dsimp only at h
    by_cases h200 : status = 200
    · rw [if_pos h200] at h
      cases body with
      | none => exact absurd (congrArg Prod.snd h) (by simp)
      | some raw =>
        dsimp only at h
        rw [Prod.mk.injEq] at h
        obtain ⟨h1, h2⟩ := h
        injection h2 with h3
        injection h3 with h4
        subst h4
        subst h1
        refine ⟨rfl, now, fun g => ?_⟩
        dsimp only
        rw [lookupFile_writeFile]
    · rw [if_neg h200] at h
      exact absurd (congrArg Prod.snd h) (by simp)

/-- Inversion of a successful `get_weather_data` result: the tracking is
untouched and the final data directory agrees with the initial one except that
the private cache filename holds the returned dataset (freshly written after a
fetch, or the pre-existing fresh readable file that was served). -/
theorem gw_ok_some_inv {det : Detector} {api : Api} {now : Timestamp} {st : St}
    {lat lon : ℚ} {sd ed : Int} {st' : St} {df : DF}
    (h : get_weather_data det api now st lat lon sd ed = (st', .ok (some df))) :
    st'.tracking = st.tracking ∧
    ∃ mt, ∀ g, lookupFile st'.files g =
      if g = weather_cache_file lat lon sd ed then some ⟨some df, mt⟩
      else lookupFile st.files g := by
  dsimp only [get_weather_data] at h
  cases hlk : lookupFile st.files (weather_cache_file lat lon sd ed) with
  | some fd =>
    rw [hlk] at h
    dsimp only at h
    by_cases hfr : now - fd.mtime < 3600
    · rw [if_pos hfr] at h
      cases hct : fd.content with
      | some c =>
        rw [hct] at h
        dsimp only at h
        have h1 : st = st' := congrArg Prod.fst h
        have h2 := congrArg Prod.snd h
        dsimp only at h2
        injection h2 with h3
        injection h3 with h4
        subst h1
        refine ⟨rfl, fd.mtime, fun g => ?_⟩
        by_cases hg : g = weather_cache_file lat lon sd ed
        · subst hg
          rw [if_pos rfl, hlk]
          cases fd with
          | mk ct mt => cases hct; cases h4; rfl
        · rw [if_neg hg]
      | none =>
        rw [hct] at h
        dsimp only at h
        exact gw_fetch_tail_inv h
    · rw [if_neg hfr] at h
      dsimp only at h
      exact gw_fetch_tail_inv h
  | none =>
    rw [hlk] at h
    dsimp only at h
    exact gw_fetch_tail_inv h

/-- Running `get_historical_data` forward on a tracker hit whose referenced
file exists and parses. -/
theorem ghd_hit_run {det : Detector} {api : Api} {now : Timestamp} {st : St}
    {lat lon : ℚ} {req : Req} {f : Filename} {fd : FileData} {C : DF}
    (hfind : find_matching_data st.files st.tracking lat lon
      (reqWindow now req).1 (reqWindow now req).2 = some f)
    (hfile : lookupFile st.files f = some fd)
    (hcontent : fd.content = some C) :
    get_historical_data det api now st lat lon req =
      (st, .ok (some (filterRange C (tsDate (reqWindow now req).1)
        (tsDate (reqWindow now req).2)), true)) := by
  dsimp only [get_historical_data]
  rw [hfind]
  dsimp only
  rw [hfile]
  dsimp only
  rw [hcontent]

/-- Inversion of a `get_historical_data` run that returned a dataset: either it
was a tracker hit, the state is untouched and the dataset is the re-read
payload filtered to the window; or it was a miss, the fetch succeeded, and the
state is the fetch state — extended by the saved payload and the appended
tracker entry when the dataset is nonempty. -/
theorem ghd_ok_inv {det : Detector} {api : Api} {now : Timestamp} {st : St}
    {lat lon : ℚ} {req : Req} {st1 : St} {D : DF} {hit : Bool}
    (h : get_historical_data det api now st lat lon req = (st1, .ok (some D, hit))) :
    (hit = true ∧ st1 = st ∧
      ∃ f fd C, find_matching_data st.files st.tracking lat lon
          (reqWindow now req).1 (reqWindow now req).2 = some f ∧
        lookupFile st.files f = some fd ∧ fd.content = some C ∧
        D = filterRange C (tsDate (reqWindow now req).1) (tsDate (reqWindow now req).2)) ∨
    (hit = false ∧
      find_matching_data st.files st.tracking lat lon
        (reqWindow now req).1 (reqWindow now req).2 = none ∧
      ∃ stMid, get_weather_data det api now st lat lon
          (tsDate (reqWindow now req).1) (tsDate (reqWindow now req).2) = (stMid, .ok (some D)) ∧
        ((D.rows = [] ∧ st1 = stMid) ∨
         (D.rows ≠ [] ∧
           st1 = { files := writeFile stMid.files
                      (Filename.weatherData (.coord lat) (.coord lon)
                        (.dtStr (reqWindow now req).1) (.dtStr (reqWindow now req).2))
                      ⟨some D, now⟩,
                   tracking := add_data_entry stMid.tracking lat lon
                      (reqWindow now req).1 (reqWindow now req).2
                      (Filename.weatherData (.coord lat) (.coord lon)
                        (.dtStr (reqWindow now req).1) (.dtStr (reqWindow now req).2)) now,
                   fetchCount := stMid.fetchCount }))) := by
  dsimp only [get_historical_data] at h
  cases hfind : find_matching_data st.files st.tracking lat lon
      (reqWindow now req).1 (reqWindow now req).2 with
  | some f =>
    rw [hfind] at h
    dsimp only at h
    cases hfile : lookupFile st.files f with
    | some fd =>
      rw [hfile] at h
      dsimp only at h
      cases hct : fd.content with
      | some C =>
        rw [hct] at h
        dsimp only at h
        rw [Prod.mk.injEq] at h
        obtain ⟨h1, h2⟩ := h
        injection h2 with h3
        rw [Prod.mk.injEq] at h3
        obtain ⟨h4, h5⟩ := h3
        injection h4 with h6
        exact Or.inl ⟨h5.symm, h1.symm, f, fd, C, rfl, hfile, hct, h6.symm⟩
      | none =>
        rw [hct] at h
        exact absurd (congrArg Prod.snd h) (by simp)
    | none =>
      rw [hfile] at h
      exact absurd (congrArg Prod.snd h) (by simp)
  | none =>
    rw [hfind] at h
    dsimp only at h
    rcases hE : get_weather_data det api now st lat lon
        (tsDate (reqWindow now req).1) (tsDate (reqWindow now req).2) with ⟨stMid, r⟩
    rw [hE] at h
    dsimp only at h
    cases r with
    | error e => exact absurd (congrArg Prod.snd h) (by simp)
    | ok o =>
      cases o with
      | none =>
        dsimp only at h
        have h2 := congrArg Prod.snd h
        dsimp only at h2
        injection h2 with h3
        rw [Prod.mk.injEq] at h3
        exact absurd h3.1 (by simp)
      | some df =>
        dsimp only at h
        by_cases hrows : df.rows = []
        · rw [if_pos hrows] at h
          rw [Prod.mk.injEq] at h
          obtain ⟨h1, h2⟩ := h
          injection h2 with h3
          rw [Prod.mk.injEq] at h3
          obtain ⟨h4, h5⟩ := h3
          injection h4 with h6
          subst h6
          exact Or.inr ⟨h5.symm, rfl, stMid, rfl, Or.inl ⟨hrows, h1.symm⟩⟩
        · rw [if_neg hrows] at h
          rw [Prod.mk.injEq] at h
          obtain ⟨h1, h2⟩ := h
          injection h2 with h3
          rw [Prod.mk.injEq] at h3
          obtain ⟨h4, h5⟩ := h3
          injection h4 with h6
          subst h6
          exact Or.inr ⟨h5.symm, rfl, stMid, rfl, Or.inr ⟨hrows, h1.symm⟩⟩

/-- After a successful fresh-fetch run, any tolerance-equal location and any
date range covered by the fetched window — provided no pre-existing tracker
entry for the location both covers that range and references an existing file —
is found by the tracker in the final state, and the found file holds exactly the
returned dataset. -/
theorem post_miss_find {det : Detector} {api : Api} {now : Timestamp} {st : St}
    {lat lon lat2 lon2 : ℚ} {req : Req} {st1 : St} {D : DF} (s2 e2 : Timestamp)
    (h1 : get_historical_data det api now st lat lon req = (st1, .ok (some D, false)))
    (hne : D.rows ≠ [])
    (hkey : get_location_key lat2 lon2 = get_location_key lat lon)
    (hcov : tsDate (reqWindow now req).1 ≤ tsDate s2 ∧
            tsDate e2 ≤ tsDate (reqWindow now req).2)
    (Hold : ∀ d, lookupTr st.tracking (get_location_key lat lon) = some d →
        ∀ en ∈ d.data_ranges, coversReq en s2 e2 = true →
          lookupFile st.files en.filename = none) :
    ∃ f2 fd2, find_matching_data st1.files st1.tracking lat2 lon2 s2 e2 = some f2 ∧
      lookupFile st1.files f2 = some fd2 ∧ fd2.content = some D := by
  rcases ghd_ok_inv h1 with ⟨hbad, _⟩ | ⟨_, hfind, stMid, hgw, hrest⟩
  · exact absurd hbad (by simp)
  rcases hrest with ⟨hempty, _⟩ | ⟨_, hst1⟩
  · exact absurd hempty hne
  obtain ⟨htrack, mt, hchar⟩ := gw_ok_some_inv hgw
  subst hst1
  have hchar2 : ∀ g, lookupFile (writeFile stMid.files
      (Filename.weatherData (.coord lat) (.coord lon)
        (.dtStr (reqWindow now req).1) (.dtStr (reqWindow now req).2)) ⟨some D, now⟩) g =
        lookupFile st.files g ∨
      ∃ mt2, lookupFile (writeFile stMid.files
        (Filename.weatherData (.coord lat) (.coord lon)
          (.dtStr (reqWindow now req).1) (.dtStr (reqWindow now req).2)) ⟨some D, now⟩) g =
        some ⟨some D, mt2⟩ := by
    intro g
    rw [lookupFile_writeFile]
    by_cases hg : g = Filename.weatherData (.coord lat) (.coord lon)
        (.dtStr (reqWindow now req).1) (.dtStr (reqWindow now req).2)
    · right
      exact ⟨now, by rw [if_pos hg]⟩
    · rw [if_neg hg]
      rw [hchar g]
      by_cases hgc : g = weather_cache_file lat lon
          (tsDate (reqWindow now req).1) (tsDate (reqWindow now req).2)
      · right
        exact ⟨mt, by rw [if_pos hgc]⟩
      · left
        rw [if_neg hgc]
  have hnewF : ∃ mt2, lookupFile (writeFile stMid.files
      (Filename.weatherData (.coord lat) (.coord lon)
        (.dtStr (reqWindow now req).1) (.dtStr (reqWindow now req).2)) ⟨some D, now⟩)
      (Filename.weatherData (.coord lat) (.coord lon)
        (.dtStr (reqWindow now req).1) (.dtStr (reqWindow now req).2)) =
      some ⟨some D, mt2⟩ := by
    refine ⟨now, ?_⟩
    rw [lookupFile_writeFile, if_pos rfl]
  have hnew : coversReq ⟨(reqWindow now req).1, (reqWindow now req).2,
      Filename.weatherData (.coord lat) (.coord lon)
        (.dtStr (reqWindow now req).1) (.dtStr (reqWindow now req).2), now⟩ s2 e2 = true := by
    simp only [coversReq, decide_eq_true_eq]
    exact hcov
  have hadd := lookupTr_addToLoc_self stMid.tracking (get_location_key lat lon) lat lon
    ⟨(reqWindow now req).1, (reqWindow now req).2,
      Filename.weatherData (.coord lat) (.coord lon)
        (.dtStr (reqWindow now req).1) (.dtStr (reqWindow now req).2), now⟩
  unfold find_matching_data at hfind
  cases hTr : lookupTr st.tracking (get_location_key lat lon) with
  | none =>
    have hTrMid : lookupTr stMid.tracking (get_location_key lat lon) = none := by
      rw [htrack]; exact hTr
    rw [hTrMid] at hadd
    dsimp only at hadd
    obtain ⟨f2, fd2, hfc, hlk, hct⟩ := findCover_append_covered st.files _ []
      (fun en hen => absurd hen (List.not_mem_nil en)) hchar2 hnew hnewF
    refine ⟨f2, fd2, ?_, hlk, hct⟩
    unfold find_matching_data
    rw [hkey]
    dsimp only [add_data_entry]
    rw [hadd]
    exact hfc
  | some d =>
    rw [hTr] at hfind
    dsimp only at hfind
    have hTrMid : lookupTr stMid.tracking (get_location_key lat lon) = some d := by
      rw [htrack]; exact hTr
    rw [hTrMid] at hadd
    dsimp only at hadd
    obtain ⟨f2, fd2, hfc, hlk, hct⟩ := findCover_append_covered st.files _ d.data_ranges
      (Hold d hTr) hchar2 hnew hnewF
    refine ⟨f2, fd2, ?_, hlk, hct⟩
    unfold find_matching_data
    rw [hkey]
    dsimp only [add_data_entry]
    rw [hadd]
    exact hfc

/-! ### C1 -/

/-- C1: a second `get_historical_data` call with identical arguments after a
call that returned a (nonempty, in-window) dataset performs no remote fetch: it
returns the very same dataset with cacheHit true and leaves the state — in
particular the fetch count — untouched. The tracker path enforces no freshness
bound at all, so this holds at any age, in particular within the freshness
window. -/
theorem c1_repeat_request_idempotent {det : Detector} {api : Api} {now : Timestamp}
    {st : St} {lat lon : ℚ} {req : Req} {st1 : St} {D : DF} {hit : Bool}
    (h1 : get_historical_data det api now st lat lon req = (st1, .ok (some D, hit)))
    (hne : D.rows ≠ [])
    (hwin : ∀ r ∈ D.rows, tsDate (reqWindow now req).1 ≤ tsDate r.date ∧
              tsDate r.date ≤ tsDate (reqWindow now req).2) :
    get_historical_data det api now st1 lat lon req = (st1, .ok (some D, true)) := by
  rcases ghd_ok_inv h1 with ⟨_, hst, f, fd, C, hfind, hfile, hct, hD⟩ | ⟨hhit, _, _⟩
  · subst hst
    rw [ghd_hit_run hfind hfile hct, ← hD]
  · subst hhit
    have hold2 : ∀ d, lookupTr st.tracking (get_location_key lat lon) = some d →
        ∀ en ∈ d.data_ranges,
          coversReq en (reqWindow now req).1 (reqWindow now req).2 = true →
          lookupFile st.files en.filename = none := by
      intro d hd en hen hcov
      rcases ghd_ok_inv h1 with ⟨hbad, _⟩ | ⟨_, hfind, _⟩
      · exact absurd hbad (by simp)
      · unfold find_matching_data at hfind
        rw [hd] at hfind
        dsimp only at hfind
        exact findCover_none_forall hfind en hen hcov
    obtain ⟨f2, fd2, hfind2, hlk2, hct2⟩ := post_miss_find (reqWindow now req).1
      (reqWindow now req).2 h1 hne rfl ⟨le_refl _, le_refl _⟩ hold2
    rw [ghd_hit_run hfind2 hlk2 hct2, filterRange_eq_self hwin]

/-! ### C2 -/

/-- C2: after a fresh-location fetch of range A has been cached and tracked, a
request for any subrange B of A at a tolerance-equal location is a cache hit
whose dataset lies entirely within B (at date granularity), at any later
moment. -/
theorem c2_coverage_subrange {det : Detector} {api : Api} {now now2 : Timestamp}
    {st : St} {lat lon lat2 lon2 : ℚ} {sA eA sB eB : Int} {st1 : St} {D : DF}
    (hfresh : lookupTr st.tracking (get_location_key lat lon) = none)
    (h1 : get_historical_data det api now st lat lon (.byRange sA eA) =
      (st1, .ok (some D, false)))
    (hne : D.rows ≠ [])
    (hkey : get_location_key lat2 lon2 = get_location_key lat lon)
    (hAB : sA ≤ sB ∧ sB ≤ eB ∧ eB ≤ eA) :
    ∃ DB, get_historical_data det api now2 st1 lat2 lon2 (.byRange sB eB) =
        (st1, .ok (some DB, true)) ∧
      ∀ r ∈ DB.rows, sB ≤ tsDate r.date ∧ tsDate r.date ≤ eB := by
  have hcov : tsDate (reqWindow now (.byRange sA eA)).1 ≤ tsDate (dayStart sB) ∧
      tsDate (dayEnd eB) ≤ tsDate (reqWindow now (.byRange sA eA)).2 := by
    dsimp only [reqWindow]
    rw [tsDate_dayStart, tsDate_dayStart, tsDate_dayEnd, tsDate_dayEnd]
    exact ⟨hAB.1, hAB.2.2⟩
  have hold2 : ∀ d, lookupTr st.tracking (get_location_key lat lon) = some d →
      ∀ en ∈ d.data_ranges, coversReq en (dayStart sB) (dayEnd eB) = true →
        lookupFile st.files en.filename = none := by
    intro d hd
    rw [hfresh] at hd
    cases hd
  obtain ⟨f2, fd2, hfind2, hlk2, hct2⟩ :=
    post_miss_find (dayStart sB) (dayEnd eB) h1 hne hkey hcov hold2
  refine ⟨filterRange D sB eB, ?_, ?_⟩
  · have hrun : get_historical_data det api now2 st1 lat2 lon2 (.byRange sB eB) =
        (st1, .ok (some (filterRange D (tsDate (dayStart sB)) (tsDate (dayEnd eB))), true)) :=
      ghd_hit_run hfind2 hlk2 hct2
    rw [tsDate_dayStart, tsDate_dayEnd] at hrun
    exact hrun
  · intro r hr
    exact (mem_filterRange.mp hr).2

def dfC1 : DF := ⟨[], [⟨dayStart 3, []⟩]⟩

def apiC1 : Api := fun _ _ _ _ => .resp 200 (some dfC1)

def fnC1 : Filename :=
  .weatherData (.coord 0) (.coord 0) (.dtStr (dayStart 3)) (.dtStr (dayEnd 4))

def stC1after : St :=
  ⟨[(weather_cache_file 0 0 3 4, ⟨some dfC1, 0⟩), (fnC1, ⟨some dfC1, 0⟩)],
   [((0, 0), ⟨0, 0, [⟨dayStart 3, dayEnd 4, fnC1, 0⟩]⟩)], 1⟩

/-- C1 witness: repeating the concrete days 3..4 request right after the first
call (whose final state is `stC1after`, with one fetch performed) is served from
the tracker with the same dataset, cacheHit true, and an unchanged state. -/
theorem c1_repeat_request_idempotent_witness :
    get_historical_data detKeepAll apiC1 0 stC1after 0 0 (.byRange 3 4) =
      (stC1after, .ok (some dfC1, true)) := by
  have h1 : get_historical_data detKeepAll apiC1 0 st0 0 0 (.byRange 3 4) =
      (stC1after, .ok (some dfC1, false)) := by rfl
  exact c1_repeat_request_idempotent h1 (by decide) (by decide)

def dfC2 : DF := ⟨[], [⟨dayStart 4, []⟩]⟩

def apiC2 : Api := fun _ _ _ _ => .resp 200 (some dfC2)

def fnC2 : Filename :=
  .weatherData (.coord 0) (.coord 0) (.dtStr (dayStart 3)) (.dtStr (dayEnd 6))

def stC2after : St :=
  ⟨[(weather_cache_file 0 0 3 6, ⟨some dfC2, 0⟩), (fnC2, ⟨some dfC2, 0⟩)],
   [((0, 0), ⟨0, 0, [⟨dayStart 3, dayEnd 6, fnC2, 0⟩]⟩)], 1⟩

/-- C2 witness: after the concrete days 3..6 range has been fetched, cached and
tracked from an empty state, the request for the subrange 4..5 at the same
location, issued later, is a cache hit whose rows all lie within days 4..5. -/
theorem c2_coverage_subrange_witness :
    ∃ DB, get_historical_data detKeepAll apiC2 999 stC2after 0 0 (.byRange 4 5) =
        (stC2after, .ok (some DB, true)) ∧
      ∀ r ∈ DB.rows, 4 ≤ tsDate r.date ∧ tsDate r.date ≤ 5 := by
  have h1 : get_historical_data detKeepAll apiC2 0 st0 0 0 (.byRange 3 6) =
      (stC2after, .ok (some dfC2, false)) := by rfl
  have hfresh : lookupTr st0.tracking (get_location_key 0 0) = none := rfl
  exact c2_coverage_subrange hfresh h1 (by decide) rfl (by decide)

end AgriCache
